import Mathlib

/-!
Verification development for the Platypus collision core
(`src/components/HandlerCollision.js`, `src/components/collision-group.js`).

Coordinates are embedded as rationals (the JavaScript source computes with
IEEE doubles; all claims under study are about exact branch structure and
algebra, not rounding).  Shapes under study are the axis-aligned rectangles
of the narrow phase; the axis resolver is embedded with its candidate
dispatch table as an explicit parameter, exactly mirroring the source's
`findAxisCollisionPosition[axis][thisKind][otherKind]` lookup, and the
rectangle–rectangle entries of that table are embedded concretely.

Helper classes (`platypus.AABB`, `platypus.Vector`, `platypus.CollisionData`)
are not part of the provided sources; the few facts needed about them are
modelled from the spec where marked.
-/

namespace Platypus

/-- Collision-type tags (`collisionTypes` entries). -/
abbrev CType := String

/-- Entity identity (the embedding uses ids where the source compares object
references with `===`). -/
abbrev EId := Nat

/-- An axis-aligned bounding box, four bounds.  Spec §3: "AABB — four bounds
(left, top, right, bottom)". -/
structure QAABB where
  left : ℚ
  top : ℚ
  right : ℚ
  bottom : ℚ
deriving DecidableEq

/-- Modelled from the spec: `platypus.AABB.collides` (AABB source absent from
src/) — exact AABB intersection test; touching boundaries do not count as
overlap. -/
def QAABB.collides (a b : QAABB) : Bool :=
  !(decide (b.right ≤ a.left) || decide (a.right ≤ b.left)
    || decide (b.bottom ≤ a.top) || decide (a.bottom ≤ b.top))

/-- A rectangle collision shape: centre position plus half extents
(`CollisionShape` of kind "rectangle"; its cached `aABB` is derived). -/
structure CShape where
  x : ℚ
  y : ℚ
  halfWidth : ℚ
  halfHeight : ℚ
deriving DecidableEq

/-- The shape's cached axis-aligned bounding box. -/
def CShape.aABB (s : CShape) : QAABB :=
  ⟨s.x - s.halfWidth, s.y - s.halfHeight, s.x + s.halfWidth, s.y + s.halfHeight⟩

/-- Modelled from the spec: rectangle shapes overlap iff their AABBs overlap
(`CollisionShape.collides`, source absent from src/). -/
def CShape.collides (a b : CShape) : Bool :=
  a.aABB.collides b.aABB

/-- The movement axes of the axis-decomposed resolver. -/
inductive Axis
  | x
  | y
deriving DecidableEq

/-- `shape[axis]` — the shape's coordinate along the given axis. -/
def CShape.axisCoord (s : CShape) : Axis → ℚ
  | Axis.x => s.x
  | Axis.y => s.y

/-- `shape.moveX` / `shape.moveY` — translate the shape so that its coordinate
on the given axis becomes `v` (the cached AABB follows the shape). -/
def CShape.moveAxis (s : CShape) (a : Axis) (v : ℚ) : CShape :=
  match a with
  | Axis.x => { s with x := v }
  | Axis.y => { s with y := v }

/-- The `returnInfo` record produced by a `findAxisCollisionPosition`
dispatch entry: a candidate contact position and a contact-normal vector. -/
structure ContactInfo where
  position : ℚ
  contactVector : ℚ × ℚ
deriving DecidableEq

/-- `platypus.CollisionData` — one axis collision record.  Field layout
follows the `cd.set(occurred, direction, position, deltaMovement, aabb,
thisShape, thatShape, vector, stuck)` call in the source. -/
structure CollisionData where
  occurred : Bool
  direction : ℤ
  position : ℚ
  deltaMovement : ℚ
  aabb : Option QAABB
  thisShape : Option CShape
  thatShape : Option CShape
  vector : ℚ × ℚ
  stuck : ℚ
deriving DecidableEq

/-- `CollisionData.setUp()` — a fresh record, no collision recorded. -/
def CollisionData.setUp : CollisionData :=
  ⟨false, 0, 0, 0, none, none, none, (0, 0), 0⟩

/-- `cd.set(...)` with the argument order of the source. -/
def CollisionData.set (occurred : Bool) (direction : ℤ) (position : ℚ)
    (deltaMovement : ℚ) (aabb : QAABB) (thisShape thatShape : CShape)
    (vector : ℚ × ℚ) (stuck : ℚ) : CollisionData :=
  ⟨occurred, direction, position, deltaMovement, some aabb, some thisShape,
    some thatShape, vector, stuck⟩

/-- The rectangle–rectangle entries of the `findAxisCollisionPosition`
decision tree (HandlerCollision.js lines 835–841 and 873–877): contact at
`thatShape.(axis) - direction * (thatShape.halfExtent + thisShape.halfExtent)`,
contact normal the signed unit axis vector. -/
def findAxisCollisionPosition (axis : Axis) (direction : ℤ)
    (thisShape thatShape : CShape) : ContactInfo :=
  match axis with
  | Axis.x =>
      ⟨thatShape.x - direction * (thatShape.halfWidth + thisShape.halfWidth),
        ((direction : ℚ), 0)⟩
  | Axis.y =>
      ⟨thatShape.y - direction * (thatShape.halfHeight + thisShape.halfHeight),
        (0, (direction : ℚ))⟩

/-- One iteration of the candidate loop inside
`findMinShapeMovementCollision` (HandlerCollision.js lines 934–956): test the
translated shape against one potential colliding shape, keep the earlier
contact, clamping a contact computed past the starting point back to the
starting point.  The state is the pair `(finalPosition, cd)`. -/
def fmsmcStep (findACP : Axis → ℤ → CShape → CShape → ContactInfo)
    (axis : Axis) (initialPoint : ℚ) (direction : ℤ)
    (translatedShape currentShape : CShape) (pcShape : CShape)
    (st : ℚ × CollisionData) : ℚ × CollisionData :=
  let finalPosition := st.1
  if translatedShape.collides pcShape then
    let collisionInfo := findACP axis direction translatedShape pcShape
    let position := collisionInfo.position
    if 0 < direction then
      if position < finalPosition then
        let position2 := if position < initialPoint then initialPoint else position
        (position2,
          CollisionData.set true direction position2 |position2 - initialPoint|
            pcShape.aABB currentShape pcShape collisionInfo.contactVector 0)
      else st
    else
      if finalPosition < position then
        let position2 := if initialPoint < position then initialPoint else position
        (position2,
          CollisionData.set true direction position2 |position2 - initialPoint|
            pcShape.aABB currentShape pcShape collisionInfo.contactVector 0)
      else st
  else st

/-- `findMinShapeMovementCollision` (HandlerCollision.js lines 911–960): find
the earliest contact along `axis` of the moving shape against the potential
colliding shapes.  `findACP` is the narrow-phase dispatch table, passed
explicitly (the source looks it up by shape kind; rectangles are embedded in
`findAxisCollisionPosition`).  The source's `while (i--)` loop walks the
candidate array from its end, which `List.foldr` reproduces. -/
def findMinShapeMovementCollision
    (findACP : Axis → ℤ → CShape → CShape → ContactInfo)
    (prevShape currentShape : CShape) (axis : Axis)
    (potentialCollidingShapes : List CShape) : CollisionData :=
  let initialPoint := prevShape.axisCoord axis
  let goalPoint := currentShape.axisCoord axis
  let direction : ℤ := if initialPoint < goalPoint then 1 else -1
  if initialPoint ≠ goalPoint then
    let translatedShape := prevShape.moveAxis axis goalPoint
    (potentialCollidingShapes.foldr
      (fmsmcStep findACP axis initialPoint direction translatedShape currentShape)
      (goalPoint, CollisionData.setUp)).2
  else CollisionData.setUp

/-- Proof infrastructure: the clamp applied to a candidate contact computed
past the starting point, written uniformly in the direction of travel
(`d ∈ {1, -1}`): multiplying by `d` orients the axis along the movement. -/
def clampTo (d : ℤ) (initialPoint p : ℚ) : ℚ :=
  if d * p < d * initialPoint then initialPoint else p

/-- Proof infrastructure: `fmsmcStep` with its two direction branches merged
into one `d`-oriented comparison; `fmsmcStepD_eq` proves it equal to
`fmsmcStep` for `d ∈ {1, -1}`. -/
def fmsmcStepD (findACP : Axis → ℤ → CShape → CShape → ContactInfo)
    (axis : Axis) (initialPoint : ℚ) (d : ℤ)
    (translatedShape currentShape : CShape) (pcShape : CShape)
    (st : ℚ × CollisionData) : ℚ × CollisionData :=
  let ci := findACP axis d translatedShape pcShape
  if translatedShape.collides pcShape = true ∧ d * ci.position < d * st.1 then
    (clampTo d initialPoint ci.position,
      CollisionData.set true d (clampTo d initialPoint ci.position)
        |clampTo d initialPoint ci.position - initialPoint|
        pcShape.aABB currentShape pcShape ci.contactVector 0)
  else st

/-! ### Collision event emission (`triggerCollisionMessages`) -/

/-- Modelled from the spec: `platypus.Vector.getInverse` (Vector source absent
from src/) — "`contactVector` exactly inverted": componentwise negation. -/
def vectorGetInverse (v : ℚ × ℚ) : ℚ × ℚ := (-v.1, -v.2)

/-- The payload of a `hit-by-*` event as filled into `triggerMessage`. -/
structure HitMsg where
  entity : Option EId
  myType : CType
  type : CType
  x : ℚ
  y : ℚ
  direction : ℚ × ℚ
  hitType : String
deriving DecidableEq

/-- A delivered event: the entity it is triggered on, the event name, and the
payload values at trigger time. -/
structure HitEvent where
  target : EId
  name : String
  msg : HitMsg
deriving DecidableEq

instance : Inhabited HitEvent :=
  ⟨⟨0, "", ⟨none, "", "", 0, 0, (0, 0), "solid"⟩⟩⟩

/-- `triggerCollisionMessages` (HandlerCollision.js lines 451–475, and the
identical local closure at lines 390–414): fire `hit-by-<thatType>` on the
moving entity; when a partner entity exists, fire the symmetric
`hit-by-<thisType>` on it with `x`, `y` negated and the contact vector
inverted. -/
def triggerCollisionMessages (entity : EId) (otherEntity : Option EId)
    (thisType thatType : CType) (x y : ℚ) (hitType : String)
    (vector : ℚ × ℚ) : List HitEvent :=
  let first : HitEvent :=
    ⟨entity, "hit-by-" ++ thatType,
      ⟨otherEntity, thisType, thatType, x, y, vector, hitType⟩⟩
  match otherEntity with
  | some oe =>
      [first,
        ⟨oe, "hit-by-" ++ thisType,
          ⟨some entity, thatType, thisType, -x, -y, vectorGetInverse vector,
            hitType⟩⟩]
  | none => [first]

/-! ### Bullet sub-stepping (`checkSolidEntityCollision`, lines 532–562) -/

/-- `sW`: the minimum width among the moving body's per-collision-type
bounding boxes (the source folds `Math.min` starting from `Infinity`; for the
empty list, which cannot occur for a live solid body, the embedding returns
0). -/
def minWidth : List (ℚ × ℚ) → ℚ
  | [] => 0
  | d :: rest => rest.foldl (fun acc p => min acc p.1) d.1

/-- `sH`: the minimum height among the moving body's per-collision-type
bounding boxes. -/
def minHeight : List (ℚ × ℚ) → ℚ
  | [] => 0
  | d :: rest => rest.foldl (fun acc p => min acc p.2) d.2

/-- The bullet step count: `step = Math.ceil(Math.max(|dX|/sW, |dY|/sH))`
capped by `step = Math.min(step, 100)`, where `(sW, sH)` are the minima of the
moving body's own per-collision-type AABB dimensions (`dims`). -/
def bulletStepCount (dX dY : ℚ) (dims : List (ℚ × ℚ)) : ℤ :=
  min ⌈max (|dX| / minWidth dims) (|dY| / minHeight dims)⌉ 100

/-- The schedule of per-iteration deltas of the bullet stepping loop:
`dX = dX / step; dY = dY / step;` then `while (step--)` applies that constant
delta once per iteration (the loop may stop early when fully blocked, so the
actual iteration count is at most this schedule's length). -/
def bulletSubsteps (dX dY : ℚ) (dims : List (ℚ × ℚ)) : List (ℚ × ℚ) :=
  let step := bulletStepCount dX dY dims
  List.replicate step.toNat (dX / (step : ℚ), dY / (step : ℚ))

/-- Modelled from the spec: the step-size bound as the spec words it — "no
single step exceeds the smallest colliding-partner dimension on either axis",
where `partnerDims` are the dimensions of the bodies collided against.  This
definition follows the spec's words (not the source) so that it can be
compared with `bulletStepCount`, which uses the moving body's own
dimensions. -/
def stepFitsSmallestPartnerDims (dX dY : ℚ)
    (ownDims partnerDims : List (ℚ × ℚ)) : Prop :=
  |dX| / ((bulletStepCount dX dY ownDims : ℤ) : ℚ) ≤ minWidth partnerDims ∧
  |dY| / ((bulletStepCount dX dY ownDims : ℤ) : ℚ) ≤ minHeight partnerDims

/-! ### The spatial grid index (`againstGrid`, lines 143–306)

JavaScript object references are embedded as cell keys: `entity.againstGrid`
holds, per inserted cell visit, the key of that cell (the source holds a
reference to the cell's `DataMap`, which the key identifies inside
`this.againstGrid`). -/

/-- `>>> 0` after 32-bit bitwise arithmetic: the value as an unsigned 32-bit
integer. -/
def jsToUint32 (z : ℤ) : ℕ := (z % (2 ^ 32 : ℤ)).toNat

/-- The grid cell key `((y << 16) ^ x) >>> 0` (lines 168 and 266), with the
JavaScript operators' 32-bit wrap-around semantics. -/
def gridKey (x y : ℤ) : ℕ :=
  Nat.xor ((jsToUint32 y * 2 ^ 16) % 2 ^ 32) (jsToUint32 x)

/-- A mapped-down (cell coordinate) AABB, as produced by `mapDown`. -/
structure GAABB where
  left : ℤ
  top : ℤ
  right : ℤ
  bottom : ℤ
deriving DecidableEq

/-- Truncation toward zero (JavaScript's ToInt32 on an in-range number),
applied before the `>>` shift. -/
def truncQ (q : ℚ) : ℤ := if 0 ≤ q then ⌊q⌋ else ⌈q⌉

/-- `mapDown` (lines 143–148): shift every bound right by `gridBits`
(arithmetic shift = flooring division by `2 ^ gridBits` after ToInt32). -/
def mapDown (gridBits : ℕ) (a : QAABB) : GAABB :=
  ⟨Int.fdiv (truncQ a.left) (2 ^ gridBits), Int.fdiv (truncQ a.top) (2 ^ gridBits),
    Int.fdiv (truncQ a.right) (2 ^ gridBits), Int.fdiv (truncQ a.bottom) (2 ^ gridBits)⟩

/-- The `(x, y)` cell coordinates visited by
`for (x = aabb.left; x <= aabb.right; x++) for (y = aabb.top; y <= aabb.bottom; y++)`,
in loop order. -/
def cellRange (a : GAABB) : List (ℤ × ℤ) :=
  (List.range (a.right - a.left + 1).toNat).flatMap
    (fun ix => (List.range (a.bottom - a.top + 1).toNat).map
      (fun iy => (a.left + (ix : ℤ), a.top + (iy : ℤ))))

/-- The cell keys covered by a mapped AABB, in visit order. -/
def coveredKeys (a : GAABB) : List ℕ :=
  (cellRange a).map (fun xy => gridKey xy.1 xy.2)

/-- `this.againstGrid`: sparse map from cell key to the cell's per-type entity
lists (`DataMap`); `none` is an untouched cell (`undefined` in the source). -/
structure AgainstGrid where
  cells : ℕ → Option (CType → List EId)

/-- The untouched cell content used once a cell is created. -/
def emptyCell : CType → List EId := fun _ => []

/-- The per-type entity list of a cell (absent cell reads as empty). -/
def cellList (g : AgainstGrid) (k : ℕ) (t : CType) : List EId :=
  ((g.cells k).getD emptyCell) t

/-- The grid-index bookkeeping the handler stores on an entity:
`entity.againstAABB` (the mapped AABB of its last indexing; `none` models the
fresh, empty `AABB.setUp()` which equals no computed AABB) and
`entity.againstGrid` (the cells it was inserted into). -/
structure EntityGridInfo where
  againstAABB : Option GAABB
  ag : List ℕ
deriving DecidableEq

/-- Remove the first occurrence of `e` (`arr.indexOf` + `arr.greenSplice`). -/
def removeFirst : List EId → EId → List EId
  | [], _ => []
  | a :: rest, e => if a = e then rest else a :: removeFirst rest e

/-- Remove one occurrence of `e` from each of the given types' lists of one
cell (`removeAgainst`'s inner `while (j--)` loop). -/
def removeTypesAt (m : CType → List EId) (types : List CType) (e : EId) :
    CType → List EId :=
  types.foldr
    (fun t acc => fun t2 => if t2 = t then removeFirst (acc t) e else acc t2) m

/-- `removeAgainst` (lines 221–245): for every cell recorded on the entity,
remove it from that cell's lists for each of its collision types, then clear
the entity's cell record (`ag.length = 0`). -/
def removeAgainst (g : AgainstGrid) (info : EntityGridInfo) (e : EId)
    (types : List CType) : AgainstGrid × EntityGridInfo :=
  let g2 := info.ag.foldr
    (fun k acc =>
      ⟨fun k2 => if k2 = k then (acc.cells k).map (fun m => removeTypesAt m types e)
        else acc.cells k2⟩) g
  (g2, { info with ag := [] })

/-- Push `e` onto each of the given types' lists of one cell
(`updateAgainst`'s inner `while (i--)` loop, creating lists as needed). -/
def insertIntoCell (m : CType → List EId) (types : List CType) (e : EId) :
    CType → List EId :=
  types.foldr (fun t acc => fun t2 => if t2 = t then acc t ++ [e] else acc t2) m

/-- One iteration of `updateAgainst`'s insertion loop: visit cell `xy`,
create its `DataMap` if absent, push the entity onto each of its types'
lists, and record the cell on the entity (`ag.push(list)`). -/
def updateInsertStep (types : List CType) (e : EId)
    (p : AgainstGrid × EntityGridInfo) (xy : ℤ × ℤ) :
    AgainstGrid × EntityGridInfo :=
  let id := gridKey xy.1 xy.2
  let m := (p.1.cells id).getD emptyCell
  (⟨fun k2 => if k2 = id then some (insertIntoCell m types e) else p.1.cells k2⟩,
    { p.2 with ag := p.2.ag ++ [id] })

/-- `updateAgainst` (lines 247–286): recompute the entity's mapped AABB; if it
differs from the recorded one, record it, remove the entity from its old
cells, and insert it into every covered cell (creating cells as needed),
recording each visited cell on the entity. -/
def updateAgainst (gridBits : ℕ) (aabbQ : QAABB) (types : List CType) (e : EId)
    (st : AgainstGrid × EntityGridInfo) : AgainstGrid × EntityGridInfo :=
  let a := mapDown gridBits aabbQ
  if st.2.againstAABB = some a then st
  else
    let info1 : EntityGridInfo := { st.2 with againstAABB := some a }
    let removed := removeAgainst st.1 info1 e types
    (cellRange a).foldl (updateInsertStep types e) removed

/-! ### Grid queries (`getAgainstGrid` / `getEntityAgainstGrid`, lines 150–219) -/

/-- Modelled from the spec: `Array.union` (source absent from src/) — the
query result is "per requested collision type, the union of bodies found";
append the elements not already present. -/
def listUnion (a b : List EId) : List EId := a ++ b.filter (fun x => !(a.contains x))

/-- Merge one cell's lists for the requested types into the result object
(`data[type] = copy` / `tList.union(arr)`, with empty lists skipped). -/
def addTypeLists (cell : CType → List EId) (types : List CType)
    (data : CType → List EId) : CType → List EId :=
  types.foldr
    (fun t acc => fun t2 =>
      if t2 = t ∧ cell t ≠ [] then listUnion (acc t) (cell t) else acc t2) data

/-- `getEntityAgainstGrid` (lines 191–219): union the per-type lists of the
cells recorded on the entity. -/
def getEntityAgainstGrid (g : AgainstGrid) (info : EntityGridInfo)
    (types : List CType) : CType → List EId :=
  info.ag.foldr
    (fun k acc => addTypeLists ((g.cells k).getD emptyCell) types acc)
    (fun _ => [])

/-- `sweep.equals(entity.againstAABB)` (line 162): bound-by-bound equality of
the world-coordinate sweep with the recorded mapped AABB (a fresh, empty
recorded AABB equals nothing). -/
def sweepEqualsAgainstAABB (sweep : QAABB) (rec0 : Option GAABB) : Bool :=
  match rec0 with
  | none => false
  | some a =>
      decide (sweep.left = (a.left : ℚ) ∧ sweep.top = (a.top : ℚ) ∧
        sweep.right = (a.right : ℚ) ∧ sweep.bottom = (a.bottom : ℚ))

/-- `getAgainstGrid` (lines 150–189): either delegate to the entity's recorded
cells, or walk every cell covered by the mapped sweep and union the per-type
lists of the cells that exist. -/
def getAgainstGrid (gridBits : ℕ) (g : AgainstGrid) (info : EntityGridInfo)
    (sweep : QAABB) (types : List CType) : CType → List EId :=
  if sweepEqualsAgainstAABB sweep info.againstAABB then
    getEntityAgainstGrid g info types
  else
    (cellRange (mapDown gridBits sweep)).foldl
      (fun data xy =>
        match g.cells (gridKey xy.1 xy.2) with
        | none => data
        | some cell => addTypeLists cell types data)
      (fun _ => [])

/-- The never-populated grid (`this.againstGrid = Data.setUp()`). -/
def emptyAgainstGrid : AgainstGrid := ⟨fun _ => none⟩

/-! ### Group processing order (`groupSortBySize`, `checkCamera`,
`checkGroupCollisions`) -/

/-- A live entity owning a collision group, abstracted to what the ordering
code reads: `collisionGroup.getAllEntities()` (the recursive entity count the
sort comparator uses) and `collisionGroup.getSize()` (the member count the
processing loop filters on). -/
structure GroupEnt where
  eid : EId
  allEntitiesCount : ℕ
  groupSize : ℕ
deriving DecidableEq

instance : Inhabited GroupEnt := ⟨⟨0, 0, 0⟩⟩

/-- The comparator relation of `groupSortBySize` (lines 39–41): the numeric
comparator `a.collisionGroup.getAllEntities() - b.collisionGroup.getAllEntities()`
sorts ascending by that count. -/
def groupSortBySize (a b : GroupEnt) : Prop :=
  a.allEntitiesCount ≤ b.allEntitiesCount

instance : DecidableRel groupSortBySize := fun a b =>
  inferInstanceAs (Decidable (a.allEntitiesCount ≤ b.allEntitiesCount))

instance : IsTotal GroupEnt groupSortBySize :=
  ⟨fun a b => Nat.le_total a.allEntitiesCount b.allEntitiesCount⟩

instance : IsTrans GroupEnt groupSortBySize :=
  ⟨fun _ _ _ hab hbc => Nat.le_trans hab hbc⟩

/-- `groups.sort(groupSortBySize)` at the end of `checkCamera` (line 361). -/
def sortGroups (gs : List GroupEnt) : List GroupEnt :=
  List.insertionSort groupSortBySize gs

/-- The order in which `checkGroupCollisions` (lines 416–448) resolves groups:
it walks the sorted live group list with `while (x--)` — i.e. from the end —
and resolves each entity whose group has more than one member. -/
def groupResolutionOrder (gs : List GroupEnt) : List GroupEnt :=
  ((sortGroups gs).reverse).filter (fun g => decide (1 < g.groupSize))

/-! ### The soft-collision pass (`checkSoftCollisions` /
`checkEntityForSoftCollisions`, lines 963–1047) -/

/-- A soft-collision participant, abstracted to what the soft pass reads:
identity, positions, collision types, soft-collision map, per-type AABBs and
per-type shape lists. -/
structure SoftEnt where
  eid : EId
  position : ℚ × ℚ
  previousPosition : ℚ × ℚ
  collisionTypes : List CType
  softCollisionMap : CType → List CType
  aabbs : CType → QAABB
  shapes : CType → List CShape

/-- A soft `hit-by-*` payload as filled into `triggerMessage` by
`checkEntityForSoftCollisions`. -/
structure SoftMsg where
  entity : EId
  type : CType
  myType : CType
  shape : CShape
  hitType : String
  x : ℚ
  y : ℚ
deriving DecidableEq

/-- The `l`/`m` shape loops (lines 1018–1039): walking both shape arrays from
the end, report the other entity's shape of the first colliding pair only. -/
def firstCollidingOtherShape (shapes otherShapes : List CShape) :
    Option CShape :=
  shapes.reverse.findSome?
    (fun s => (otherShapes.reverse).find? (fun o => s.collides o))

/-- The (zero or one) soft messages one candidate entity contributes: guard
`otherEntity !== ent` and the per-type AABB overlap, then report the first
colliding shape pair with `x = 0`, `y = 0` (set once at lines 999–1000) and
`hitType = "soft"`. -/
def softHitList (ent : SoftEnt) (collisionType otherCollisionType : CType)
    (otherEntity : SoftEnt) : List SoftMsg :=
  if otherEntity.eid ≠ ent.eid ∧
      (ent.aabbs collisionType).collides (otherEntity.aabbs otherCollisionType) then
    match firstCollidingOtherShape (ent.shapes collisionType)
        (otherEntity.shapes otherCollisionType) with
    | some oshape =>
        [⟨otherEntity.eid, otherCollisionType, collisionType, oshape, "soft", 0, 0⟩]
    | none => []
  else []

/-- `checkEntityForSoftCollisions` (lines 982–1047): for each collision type
(walked from the end), query the broad phase for the soft map's types and
collect the soft messages; the pass only reads.  `query` stands for
`this.getEntityAgainstGrid(ent, softCollisionMap)` (embedded separately as
`getEntityAgainstGrid`); the claims hold for every query result. -/
def checkEntityForSoftCollisions
    (query : List CType → CType → List SoftEnt) (ent : SoftEnt) :
    List SoftMsg :=
  (ent.collisionTypes.reverse).foldl
    (fun msgs collisionType =>
      let softMapT := ent.softCollisionMap collisionType
      (softMapT.reverse).foldl
        (fun msgs2 otherCollisionType =>
          ((query softMapT otherCollisionType).reverse).foldl
            (fun msgs3 otherEntity =>
              msgs3 ++ softHitList ent collisionType otherCollisionType otherEntity)
            msgs2)
        msgs)
    []

/-- `getEntityCollisions` (lines 1108–1116): the public query collects the
same soft messages into a list. -/
def getEntityCollisions (query : List CType → CType → List SoftEnt)
    (entity : SoftEnt) : List SoftMsg :=
  checkEntityForSoftCollisions query entity

/-- `checkSoftCollisions` (lines 963–980): run the soft detection for every
live soft entity (walked from the end), producing events only; the entity
list is threaded through the pass as the world state. -/
def checkSoftCollisions (query : List CType → CType → List SoftEnt)
    (softs : List SoftEnt) : List SoftEnt × List SoftMsg :=
  (softs.reverse).foldl
    (fun st e => (st.1, st.2 ++ checkEntityForSoftCollisions query e))
    (softs, [])

/-! ### Solid candidate gathering (`includeEntity` inside
`processCollisionStep`, lines 579–662) -/

/-- A solid candidate participant, abstracted to what the gathering code
reads. -/
structure SolidEnt where
  eid : EId
  jumpThrough : Bool
  aabbs : CType → QAABB
  shapes : CType → List CShape

/-- `includeEntity` (lines 581–601): chop out the special-case entities —
self, jump-through platforms approached from below (and, for a jump-through
mover, candidates below it), and explicitly ignored entities — then keep the
candidate iff the swept AABB overlaps its AABB.  `aabb` is the moving body's
previous AABB for the collision type being swept. -/
def includeEntity (thisEntity : SolidEnt) (aabb : QAABB)
    (otherEntity : SolidEnt) (otherAABB : QAABB)
    (ignoredEntities : Option (List EId)) (sweepAABB : QAABB) : Bool :=
  if otherEntity.eid = thisEntity.eid then false
  else if otherEntity.jumpThrough = true ∧ otherAABB.top < aabb.bottom then false
  else if thisEntity.jumpThrough = true ∧ aabb.top < otherAABB.bottom then false
  else if (match ignoredEntities with
    | some l => decide (otherEntity.eid ∈ l)
    | none => false) then false
  else sweepAABB.collides otherAABB

/-- The candidate-shape gathering loop of `processCollisionStep` (lines
645–662): walk the broad-phase entities from the end and, for each included
one, push its shapes (walked from the end) onto the potential colliding
shapes. -/
def gatherPotentialShapes (thisEntity : SolidEnt) (prevAABB sweepAABB : QAABB)
    (ignoredEntities : Option (List EId)) (otherEntities : List SolidEnt)
    (otherCollisionType : CType) : List CShape :=
  (otherEntities.reverse).foldl
    (fun acc oe =>
      if includeEntity thisEntity prevAABB oe (oe.aabbs otherCollisionType)
          ignoredEntities sweepAABB then
        acc ++ (oe.shapes otherCollisionType).reverse
      else acc)
    []

/-! ### Concrete instances used by the witnesses -/

/-- A soft participant used by the C9 witness: one collision type "a",
reporting softly against "b". -/
def demoSoftEnt : SoftEnt :=
  ⟨1, (0, 0), (0, 0), ["a"], fun _ => ["b"], fun _ => ⟨0, 0, 10, 10⟩,
    fun _ => [⟨5, 5, 5, 5⟩]⟩

/-- The overlapping partner of `demoSoftEnt`. -/
def demoSoftOther : SoftEnt :=
  ⟨2, (3, 0), (3, 0), ["b"], fun _ => [], fun _ => ⟨0, 0, 10, 10⟩,
    fun _ => [⟨5, 5, 5, 5⟩]⟩

/-- A broad-phase query returning the partner. -/
def demoQuery : List CType → CType → List SoftEnt := fun _ _ => [demoSoftOther]

/-- A moving solid body used by the C10 witness. -/
def demoMover : SolidEnt :=
  ⟨1, false, fun _ => ⟨0, 0, 10, 10⟩, fun _ => [⟨5, 5, 5, 5⟩]⟩

/-- A jump-through platform whose top lies above the mover's previous AABB
bottom. -/
def demoPlatform : SolidEnt :=
  ⟨2, true, fun _ => ⟨0, 5, 10, 15⟩, fun _ => [⟨5, 10, 5, 5⟩]⟩

/-! ## General helper lemmas -/

/-- A predicate holding on a fold's seed and preserved by its step holds on
every member of the result. -/
theorem all_foldl {α β : Type} (P : β → Prop) (f : List β → α → List β)
    (l : List α) (init : List β) (hinit : ∀ m ∈ init, P m)
    (hstep : ∀ acc x, (∀ m ∈ acc, P m) → ∀ m ∈ f acc x, P m) :
    ∀ m ∈ l.foldl f init, P m := by
  induction l generalizing init with
  | nil => exact hinit
  | cons a rest ih => exact ih (f init a) (hstep init a hinit)

/-! ## C2 — solid collision event symmetry -/

/-- C2: for every solid collision in which a partner entity exists, events
fire on both participants; the event delivered to the struck entity carries
`x` and `y` exactly negated and the contact vector exactly inverted relative
to the event delivered to the moving entity, with the same hitType "solid"
and the two collision types swapped between the `type` and `myType`
fields. -/
theorem c2_solid_event_symmetry (entity o : EId) (thisType thatType : CType)
    (x y : ℚ) (v : ℚ × ℚ) :
    (triggerCollisionMessages entity (some o) thisType thatType x y "solid" v).length = 2 ∧
    ((triggerCollisionMessages entity (some o) thisType thatType x y "solid" v).getD 0 default).target = entity ∧
    ((triggerCollisionMessages entity (some o) thisType thatType x y "solid" v).getD 1 default).target = o ∧
    ((triggerCollisionMessages entity (some o) thisType thatType x y "solid" v).getD 1 default).msg.x =
      -((triggerCollisionMessages entity (some o) thisType thatType x y "solid" v).getD 0 default).msg.x ∧
    ((triggerCollisionMessages entity (some o) thisType thatType x y "solid" v).getD 1 default).msg.y =
      -((triggerCollisionMessages entity (some o) thisType thatType x y "solid" v).getD 0 default).msg.y ∧
    ((triggerCollisionMessages entity (some o) thisType thatType x y "solid" v).getD 1 default).msg.direction =
      vectorGetInverse ((triggerCollisionMessages entity (some o) thisType thatType x y "solid" v).getD 0 default).msg.direction ∧
    ((triggerCollisionMessages entity (some o) thisType thatType x y "solid" v).getD 0 default).msg.hitType = "solid" ∧
    ((triggerCollisionMessages entity (some o) thisType thatType x y "solid" v).getD 1 default).msg.hitType = "solid" ∧
    ((triggerCollisionMessages entity (some o) thisType thatType x y "solid" v).getD 1 default).msg.type =
      ((triggerCollisionMessages entity (some o) thisType thatType x y "solid" v).getD 0 default).msg.myType ∧
    ((triggerCollisionMessages entity (some o) thisType thatType x y "solid" v).getD 1 default).msg.myType =
      ((triggerCollisionMessages entity (some o) thisType thatType x y "solid" v).getD 0 default).msg.type :=
  ⟨rfl, rfl, rfl, rfl, rfl, rfl, rfl, rfl, rfl, rfl⟩

/-! ## C9 — soft events report no contact side -/

/-- Each message a single candidate contributes carries `x = 0`, `y = 0`. -/
theorem softHitList_no_side (ent : SoftEnt) (ct oct : CType) (oe : SoftEnt) :
    ∀ m ∈ softHitList ent ct oct oe, m.x = 0 ∧ m.y = 0 := by
  intro m hm
  unfold softHitList at hm
  split at hm
  · split at hm
    · rw [List.mem_singleton] at hm
      subst hm
      exact ⟨rfl, rfl⟩
    · exact absurd hm (List.not_mem_nil m)
  · exact absurd hm (List.not_mem_nil m)

/-- C9: every soft-collision event emitted by `checkEntityForSoftCollisions`
(and therefore by the public `getEntityCollisions` query) carries `x = 0` and
`y = 0`, regardless of the relative positions of the overlapping shapes. -/
theorem c9_soft_events_carry_no_side (query : List CType → CType → List SoftEnt)
    (ent : SoftEnt) :
    (∀ m ∈ checkEntityForSoftCollisions query ent, m.x = 0 ∧ m.y = 0) ∧
    (∀ m ∈ getEntityCollisions query ent, m.x = 0 ∧ m.y = 0) := by
  have h1 : ∀ m ∈ checkEntityForSoftCollisions query ent, m.x = 0 ∧ m.y = 0 := by
    unfold checkEntityForSoftCollisions
    refine all_foldl (fun m : SoftMsg => m.x = 0 ∧ m.y = 0) _ _ _
      (fun m hm => absurd hm (List.not_mem_nil m)) ?_
    intro acc ct hacc
    dsimp only
    refine all_foldl (fun m : SoftMsg => m.x = 0 ∧ m.y = 0) _ _ _ hacc ?_
    intro acc2 oct hacc2
    refine all_foldl (fun m : SoftMsg => m.x = 0 ∧ m.y = 0) _ _ _ hacc2 ?_
    intro acc3 oe hacc3 m hm
    rcases List.mem_append.mp hm with h | h
    · exact hacc3 m h
    · exact softHitList_no_side ent ct oct oe m h
  exact ⟨h1, h1⟩

/-! ## C4 — the soft pass never mutates positions -/

/-- The soft pass's fold leaves its world component untouched. -/
theorem soft_fold_fst (query : List CType → CType → List SoftEnt)
    (l : List SoftEnt) (st : List SoftEnt × List SoftMsg) :
    (l.foldl (fun st2 e => (st2.1, st2.2 ++ checkEntityForSoftCollisions query e)) st).1 = st.1 := by
  induction l generalizing st with
  | nil => rfl
  | cons a rest ih => exact ih _

/-- C4: running the soft-collision pass never changes any entity's position
or previous position, for every set of entities and regardless of how many
shape overlaps are found and reported. -/
theorem c4_soft_pass_nonmutating (query : List CType → CType → List SoftEnt)
    (softs : List SoftEnt) :
    (checkSoftCollisions query softs).1 = softs ∧
    ((checkSoftCollisions query softs).1).map (fun e => (e.position, e.previousPosition)) =
      softs.map (fun e => (e.position, e.previousPosition)) := by
  have h : (checkSoftCollisions query softs).1 = softs :=
    soft_fold_fst query softs.reverse (softs, [])
  exact ⟨h, by rw [h]⟩

/-! ## C8 — querying a never-populated grid -/

/-- Folding the query step over any cell walk of the never-populated grid
returns the seed. -/
theorem foldl_cells_none (types : List CType) (l : List (ℤ × ℤ))
    (data : CType → List EId) :
    l.foldl (fun d xy =>
      match emptyAgainstGrid.cells (gridKey xy.1 xy.2) with
      | none => d
      | some cell => addTypeLists cell types d) data = data := by
  induction l generalizing data with
  | nil => rfl
  | cons a rest ih => exact ih data

/-- C8: querying the spatial grid when it was never populated returns an
empty per-type result for every swept AABB and every requested type list
(and, the embedding being total, without raising an error). -/
theorem c8_query_never_populated (gridBits : ℕ) (info : EntityGridInfo)
    (sweep : QAABB) (types : List CType) (hag : info.ag = []) :
    (∀ t, getAgainstGrid gridBits emptyAgainstGrid info sweep types t = []) ∧
    (∀ t, getEntityAgainstGrid emptyAgainstGrid info types t = []) := by
  have h2 : ∀ t, getEntityAgainstGrid emptyAgainstGrid info types t = [] := by
    intro t
    unfold getEntityAgainstGrid
    rw [hag]
    rfl
  refine ⟨?_, h2⟩
  intro t
  unfold getAgainstGrid
  split
  · exact h2 t
  · exact congrFun (foldl_cells_none types _ _) t

/-- Witness for C8 at a concrete never-populated state. -/
theorem c8_witness :
    (⟨none, []⟩ : EntityGridInfo).ag = [] ∧
    getAgainstGrid 8 emptyAgainstGrid ⟨none, []⟩ ⟨0, 0, 1, 1⟩ ["a"] "a" = [] ∧
    getEntityAgainstGrid emptyAgainstGrid ⟨none, []⟩ ["a"] "a" = [] :=
  ⟨rfl, (c8_query_never_populated 8 ⟨none, []⟩ ⟨0, 0, 1, 1⟩ ["a"] rfl).1 "a",
    (c8_query_never_populated 8 ⟨none, []⟩ ⟨0, 0, 1, 1⟩ ["a"] rfl).2 "a"⟩

/-! ## C10 — jumpThrough exclusion -/

/-- C10: a jumpThrough candidate approached from below (or any candidate
below a jumpThrough mover) is excluded by `includeEntity`, and contributes no
shapes to the gathered potential colliding shapes, wherever it sits in the
broad-phase candidate list — hence no collision record and no event. -/
theorem c10_jumpThrough_excluded (thisEntity other : SolidEnt)
    (prevAABB sweep : QAABB) (ignored : Option (List EId)) (t : CType)
    (h : (other.jumpThrough = true ∧ (other.aabbs t).top < prevAABB.bottom) ∨
        (thisEntity.jumpThrough = true ∧ prevAABB.top < (other.aabbs t).bottom)) :
    includeEntity thisEntity prevAABB other (other.aabbs t) ignored sweep = false ∧
    ∀ L1 L2 : List SolidEnt,
      gatherPotentialShapes thisEntity prevAABB sweep ignored (L1 ++ other :: L2) t =
        gatherPotentialShapes thisEntity prevAABB sweep ignored (L1 ++ L2) t := by
  have hinc : includeEntity thisEntity prevAABB other (other.aabbs t) ignored sweep = false := by
    unfold includeEntity
    split_ifs <;> first | rfl | tauto
  refine ⟨hinc, ?_⟩
  intro L1 L2
  unfold gatherPotentialShapes
  rw [List.reverse_append, List.reverse_cons, List.reverse_append,
    List.foldl_append, List.foldl_append, List.foldl_append]
  simp only [List.foldl_cons, List.foldl_nil, hinc, Bool.false_eq_true, if_false]

/-! ## C7 — groups are resolved in descending entity-count order -/

/-- C7: during the per-frame pass, for any two positions in the group
resolution order, the group resolved earlier has at least as large an entity
count as the one resolved later (the ascending sort of `groupSortBySize`
composed with the backwards `while (x--)` walk yields descending order). -/
theorem c7_groups_resolved_descending (gs : List GroupEnt) (i j : ℕ)
    (hij : i < j) (hj : j < (groupResolutionOrder gs).length) :
    ((groupResolutionOrder gs).getD j default).allEntitiesCount ≤
      ((groupResolutionOrder gs).getD i default).allEntitiesCount := by
  have hsorted : List.Sorted groupSortBySize (sortGroups gs) :=
    List.sorted_insertionSort groupSortBySize gs
  have hrev : (sortGroups gs).reverse.Pairwise
      (fun a b => b.allEntitiesCount ≤ a.allEntitiesCount) := by
    rw [List.pairwise_reverse]
    exact hsorted
  have hfil : (groupResolutionOrder gs).Pairwise
      (fun a b => b.allEntitiesCount ≤ a.allEntitiesCount) :=
    hrev.filter _
  have hi : i < (groupResolutionOrder gs).length := lt_trans hij hj
  have hpw := List.pairwise_iff_get.mp hfil ⟨i, hi⟩ ⟨j, hj⟩ hij
  rw [List.getD_eq_get _ _ hj, List.getD_eq_get _ _ hi]
  exact hpw

/-- Witness for C7 on a concrete two-group list. -/
theorem c7_witness :
    (0 : ℕ) < 1 ∧ 1 < (groupResolutionOrder [⟨1, 2, 2⟩, ⟨2, 5, 3⟩]).length ∧
    ((groupResolutionOrder [⟨1, 2, 2⟩, ⟨2, 5, 3⟩]).getD 1 default).allEntitiesCount ≤
      ((groupResolutionOrder [⟨1, 2, 2⟩, ⟨2, 5, 3⟩]).getD 0 default).allEntitiesCount :=
  ⟨by decide, by decide,
    c7_groups_resolved_descending [⟨1, 2, 2⟩, ⟨2, 5, 3⟩] 0 1 (by decide) (by decide)⟩

/-! ## C3 — bullet sub-stepping -/

/-- A fold of `min` over positive values from a positive seed stays
positive. -/
theorem foldl_min_pos (f : ℚ × ℚ → ℚ) :
    ∀ (l : List (ℚ × ℚ)) (acc : ℚ), 0 < acc → (∀ p ∈ l, 0 < f p) →
      0 < l.foldl (fun a p => min a (f p)) acc := by
  intro l
  induction l with
  | nil => intro acc hacc _; exact hacc
  | cons d rest ih =>
      intro acc hacc hl
      exact ih (min acc (f d)) (lt_min hacc (hl d (List.mem_cons_self d rest)))
        (fun p hp => hl p (List.mem_cons_of_mem d hp))

/-- The minimum of the per-type widths is positive for a nonempty list of
positive dimensions. -/
theorem minWidth_pos (dims : List (ℚ × ℚ)) (hne : dims ≠ [])
    (hpos : ∀ d ∈ dims, 0 < d.1) : 0 < minWidth dims := by
  cases dims with
  | nil => exact absurd rfl hne
  | cons d rest =>
      exact foldl_min_pos (fun p => p.1) rest d.1
        (hpos d (List.mem_cons_self d rest))
        (fun p hp => hpos p (List.mem_cons_of_mem d hp))

/-- The minimum of the per-type heights is positive for a nonempty list of
positive dimensions. -/
theorem minHeight_pos (dims : List (ℚ × ℚ)) (hne : dims ≠ [])
    (hpos : ∀ d ∈ dims, 0 < d.2) : 0 < minHeight dims := by
  cases dims with
  | nil => exact absurd rfl hne
  | cons d rest =>
      exact foldl_min_pos (fun p => p.2) rest d.2
        (hpos d (List.mem_cons_self d rest))
        (fun p hp => hpos p (List.mem_cons_of_mem d hp))

/-- Summing a replicated constant delta. -/
theorem foldl_replicate_sum (n : ℕ) (c : ℚ × ℚ) :
    ∀ acc : ℚ × ℚ,
      (List.replicate n c).foldl (fun a p => (a.1 + p.1, a.2 + p.2)) acc =
        (acc.1 + n * c.1, acc.2 + n * c.2) := by
  induction n with
  | zero => intro acc; simp
  | succ k ih =>
      intro acc
      rw [List.replicate_succ, List.foldl_cons, ih]
      simp only [Prod.mk.injEq]
      push_cast
      constructor <;> ring

/-- C3 (amended): the bullet stepping schedule divides the frame delta into
`N` equal sub-steps with `N = min(⌈max(|dX|/sW, |dY|/sH)⌉, 100)` where
`(sW, sH)` are the minima of the moving body's own per-collision-type AABB
dimensions; `N ≥ 1`, the schedule reconstructs the delta exactly, the loop
runs at most 100 iterations, and whenever the 100 cap does not bind no single
sub-step exceeds `sW` or `sH`. -/
theorem c3_bullet_substeps_capped (dX dY : ℚ) (dims : List (ℚ × ℚ))
    (hne : dims ≠ []) (hpos : ∀ d ∈ dims, 0 < d.1 ∧ 0 < d.2)
    (hmove : dX ≠ 0 ∨ dY ≠ 0) :
    (bulletSubsteps dX dY dims).length ≤ 100 ∧
    1 ≤ bulletStepCount dX dY dims ∧
    (bulletSubsteps dX dY dims).foldl
      (fun acc p => (acc.1 + p.1, acc.2 + p.2)) (0, 0) = (dX, dY) ∧
    (⌈max (|dX| / minWidth dims) (|dY| / minHeight dims)⌉ ≤ 100 →
      |dX| / ((bulletStepCount dX dY dims : ℤ) : ℚ) ≤ minWidth dims ∧
      |dY| / ((bulletStepCount dX dY dims : ℤ) : ℚ) ≤ minHeight dims) := by
  have hsW : 0 < minWidth dims :=
    minWidth_pos dims hne (fun d hd => (hpos d hd).1)
  have hsH : 0 < minHeight dims :=
    minHeight_pos dims hne (fun d hd => (hpos d hd).2)
  set r := max (|dX| / minWidth dims) (|dY| / minHeight dims) with hr_def
  have hr : 0 < r := by
    rcases hmove with h | h
    · exact lt_of_lt_of_le (div_pos (abs_pos.mpr h) hsW) (le_max_left _ _)
    · exact lt_of_lt_of_le (div_pos (abs_pos.mpr h) hsH) (le_max_right _ _)
  have hceil : 1 ≤ ⌈r⌉ := Int.ceil_pos.mpr hr
  have hN : 1 ≤ bulletStepCount dX dY dims := by
    unfold bulletStepCount
    exact le_min hceil (by norm_num)
  have hNcap : bulletStepCount dX dY dims ≤ 100 := min_le_right _ _
  have hNpos : (0 : ℚ) < ((bulletStepCount dX dY dims : ℤ) : ℚ) := by
    exact_mod_cast lt_of_lt_of_le Int.zero_lt_one hN
  refine ⟨?_, hN, ?_, ?_⟩
  · unfold bulletSubsteps
    rw [List.length_replicate]
    exact Int.toNat_le.mpr hNcap
  · unfold bulletSubsteps
    rw [foldl_replicate_sum]
    have hcast : ((bulletStepCount dX dY dims).toNat : ℚ) =
        ((bulletStepCount dX dY dims : ℤ) : ℚ) := by
      exact_mod_cast congrArg (fun z : ℤ => (z : ℚ))
        (Int.toNat_of_nonneg (le_trans zero_le_one hN))
    rw [hcast]
    simp only [Prod.mk.injEq]
    constructor
    · rw [zero_add, mul_comm]
      exact div_mul_cancel₀ dX (ne_of_gt hNpos)
    · rw [zero_add, mul_comm]
      exact div_mul_cancel₀ dY (ne_of_gt hNpos)
  · intro h100
    have hNeq : bulletStepCount dX dY dims = ⌈r⌉ := min_eq_left h100
    have hceilQ : |dX| / minWidth dims ≤ ((⌈r⌉ : ℤ) : ℚ) :=
      le_trans (le_max_left _ _) (Int.le_ceil r)
    have hceilQ2 : |dY| / minHeight dims ≤ ((⌈r⌉ : ℤ) : ℚ) :=
      le_trans (le_max_right _ _) (Int.le_ceil r)
    rw [hNeq] at hNpos ⊢
    constructor
    · rw [div_le_iff hNpos]
      calc |dX| ≤ ((⌈r⌉ : ℤ) : ℚ) * minWidth dims := (div_le_iff hsW).mp hceilQ
        _ = minWidth dims * ((⌈r⌉ : ℤ) : ℚ) := mul_comm _ _
    · rw [div_le_iff hNpos]
      calc |dY| ≤ ((⌈r⌉ : ℤ) : ℚ) * minHeight dims := (div_le_iff hsH).mp hceilQ2
        _ = minHeight dims * ((⌈r⌉ : ℤ) : ℚ) := mul_comm _ _

/-- Witness for C3's amended theorem at a concrete bullet body. -/
theorem c3_witness :
    ([((10 : ℚ), (10 : ℚ))] ≠ []) ∧ ((10 : ℚ) ≠ 0 ∨ (0 : ℚ) ≠ 0) ∧
    (bulletSubsteps 10 0 [(10, 10)]).length ≤ 100 ∧
    1 ≤ bulletStepCount 10 0 [(10, 10)] :=
  ⟨by decide, Or.inl (by decide),
    (c3_bullet_substeps_capped 10 0 [(10, 10)] (by decide) (by decide)
      (Or.inl (by decide))).1,
    (c3_bullet_substeps_capped 10 0 [(10, 10)] (by decide) (by decide)
      (Or.inl (by decide))).2.1⟩

/-- C3 counterexample: the claim's step-size bound as worded — against the
smallest *colliding-partner* dimension — fails: a 10-wide body moving 10 units
takes a single 10-unit step, which exceeds a 2-unit partner dimension (the
source sizes steps by the mover's own dimensions, lines 537–545). -/
theorem c3_counterexample :
    ¬ stepFitsSmallestPartnerDims 10 0 [(10, 10)] [(2, 2)] := by
  unfold stepFitsSmallestPartnerDims
  have hb : bulletStepCount 10 0 [(10, 10)] = 1 := by
    unfold bulletStepCount
    have h1 : minWidth [((10 : ℚ), (10 : ℚ))] = 10 := rfl
    have h2 : minHeight [((10 : ℚ), (10 : ℚ))] = 10 := rfl
    rw [h1, h2]
    have h3 : max (|(10 : ℚ)| / 10) (|(0 : ℚ)| / 10) = 1 := by norm_num
    rw [h3, Int.ceil_one]
    norm_num
  rw [hb]
  intro hcl
  have h4 : minWidth [((2 : ℚ), (2 : ℚ))] = 2 := rfl
  rw [h4] at hcl
  have h5 := hcl.1
  norm_num at h5

/-! ## C5 and C1 — axis resolver machinery

`fmsmcStepD_eq` merges the resolver's two direction branches into one
`d`-oriented comparison (`d ∈ {1, -1}`); the fold lemmas then reason about
the candidate loop uniformly in the direction of travel. -/

/-- For a direction of `±1`, one candidate-loop iteration equals its
direction-normalized form. -/
theorem fmsmcStepD_eq (findACP : Axis → ℤ → CShape → CShape → ContactInfo)
    (axis : Axis) (initialPoint : ℚ) (d : ℤ) (hd : d = 1 ∨ d = -1)
    (translatedShape currentShape pcShape : CShape) (st : ℚ × CollisionData) :
    fmsmcStep findACP axis initialPoint d translatedShape currentShape pcShape st =
      fmsmcStepD findACP axis initialPoint d translatedShape currentShape pcShape st := by
  rcases hd with rfl | rfl
  · unfold fmsmcStep fmsmcStepD clampTo
    dsimp only
    simp only [Int.cast_one, one_mul]
    by_cases hc : translatedShape.collides pcShape = true
    · by_cases hp : (findACP axis 1 translatedShape pcShape).position < st.1
      · simp [hc, hp]
      · simp [hc, hp]
    · simp [hc]
  · unfold fmsmcStep fmsmcStepD clampTo
    dsimp only
    simp only [Int.cast_neg, Int.cast_one, neg_mul, one_mul, neg_lt_neg_iff]
    by_cases hc : translatedShape.collides pcShape = true
    · by_cases hp : st.1 < (findACP axis (-1) translatedShape pcShape).position
      · simp [hc, hp]
      · simp [hc, hp]
    · simp [hc]

/-- The whole candidate loop equals its direction-normalized form. -/
theorem foldr_fmsmc_eq (findACP : Axis → ℤ → CShape → CShape → ContactInfo)
    (axis : Axis) (initialPoint : ℚ) (d : ℤ) (hd : d = 1 ∨ d = -1)
    (translatedShape currentShape : CShape) (l : List CShape)
    (st : ℚ × CollisionData) :
    l.foldr (fmsmcStep findACP axis initialPoint d translatedShape currentShape) st =
      l.foldr (fmsmcStepD findACP axis initialPoint d translatedShape currentShape) st := by
  induction l with
  | nil => rfl
  | cons a rest ih =>
      rw [List.foldr_cons, List.foldr_cons, ih,
        fmsmcStepD_eq findACP axis initialPoint d hd]

/-- One normalized iteration keeps the running position (and any recorded
position) inside the travel span and the recorded movement nonnegative. -/
theorem stepD_interval (findACP : Axis → ℤ → CShape → CShape → ContactInfo)
    (axis : Axis) (initial goal : ℚ) (d : ℤ)
    (translated current a : CShape) (st : ℚ × CollisionData)
    (hig : (d : ℚ) * initial ≤ (d : ℚ) * goal)
    (h1 : (d : ℚ) * initial ≤ (d : ℚ) * st.1)
    (h2 : (d : ℚ) * st.1 ≤ (d : ℚ) * goal)
    (h3 : 0 ≤ st.2.deltaMovement)
    (h4 : st.2.occurred = true →
      (d : ℚ) * initial ≤ (d : ℚ) * st.2.position ∧
      (d : ℚ) * st.2.position ≤ (d : ℚ) * goal) :
    (d : ℚ) * initial ≤
        (d : ℚ) * (fmsmcStepD findACP axis initial d translated current a st).1 ∧
    (d : ℚ) * (fmsmcStepD findACP axis initial d translated current a st).1 ≤
        (d : ℚ) * goal ∧
    0 ≤ (fmsmcStepD findACP axis initial d translated current a st).2.deltaMovement ∧
    ((fmsmcStepD findACP axis initial d translated current a st).2.occurred = true →
      (d : ℚ) * initial ≤
          (d : ℚ) * (fmsmcStepD findACP axis initial d translated current a st).2.position ∧
      (d : ℚ) * (fmsmcStepD findACP axis initial d translated current a st).2.position ≤
          (d : ℚ) * goal) := by
  unfold fmsmcStepD clampTo
  dsimp only
  split_ifs with hcond hclamp
  · exact ⟨le_refl _, hig, abs_nonneg _, fun _ => ⟨le_refl _, hig⟩⟩
  · exact ⟨not_lt.mp hclamp, le_trans (le_of_lt hcond.2) h2, abs_nonneg _,
      fun _ => ⟨not_lt.mp hclamp, le_trans (le_of_lt hcond.2) h2⟩⟩
  · exact ⟨h1, h2, h3, h4⟩

/-- The normalized candidate loop keeps the resolved position (and any
recorded position) inside the travel span and the recorded movement
nonnegative. -/
theorem foldD_interval (findACP : Axis → ℤ → CShape → CShape → ContactInfo)
    (axis : Axis) (initial goal : ℚ) (d : ℤ) (translated current : CShape) :
    ∀ (cands : List CShape),
      (d : ℚ) * initial ≤ (d : ℚ) * goal →
      ∀ st : ℚ × CollisionData,
        (d : ℚ) * initial ≤ (d : ℚ) * st.1 →
        (d : ℚ) * st.1 ≤ (d : ℚ) * goal →
        0 ≤ st.2.deltaMovement →
        (st.2.occurred = true →
          (d : ℚ) * initial ≤ (d : ℚ) * st.2.position ∧
          (d : ℚ) * st.2.position ≤ (d : ℚ) * goal) →
        (d : ℚ) * initial ≤ (d : ℚ) *
            (cands.foldr (fmsmcStepD findACP axis initial d translated current) st).1 ∧
        (d : ℚ) *
            (cands.foldr (fmsmcStepD findACP axis initial d translated current) st).1 ≤
          (d : ℚ) * goal ∧
        0 ≤ (cands.foldr (fmsmcStepD findACP axis initial d translated current) st).2.deltaMovement ∧
        ((cands.foldr (fmsmcStepD findACP axis initial d translated current) st).2.occurred = true →
          (d : ℚ) * initial ≤ (d : ℚ) *
              (cands.foldr (fmsmcStepD findACP axis initial d translated current) st).2.position ∧
          (d : ℚ) *
              (cands.foldr (fmsmcStepD findACP axis initial d translated current) st).2.position ≤
            (d : ℚ) * goal) := by
  intro cands hig
  induction cands with
  | nil => intro st h1 h2 h3 h4; exact ⟨h1, h2, h3, h4⟩
  | cons a rest ih =>
      intro st h1 h2 h3 h4
      have hr := ih st h1 h2 h3 h4
      rw [List.foldr_cons]
      exact stepD_interval findACP axis initial goal d translated current a
        (rest.foldr (fmsmcStepD findACP axis initial d translated current) st)
        hig hr.1 hr.2.1 hr.2.2.1 hr.2.2.2

/-- While every colliding candidate's contact position lies at or beyond
`pC` in the direction of travel, the normalized loop never moves the running
position inside `pC`, and whenever the running position equals `pC` a
collision with that position stands recorded. -/
theorem foldD_keeps_above (findACP : Axis → ℤ → CShape → CShape → ContactInfo)
    (axis : Axis) (initial pC : ℚ) (d : ℤ) (translated current : CShape) :
    ∀ L : List CShape,
      (∀ c2 ∈ L, translated.collides c2 = true →
        (d : ℚ) * pC ≤ (d : ℚ) * (findACP axis d translated c2).position) →
      (d : ℚ) * initial ≤ (d : ℚ) * pC →
      ∀ st : ℚ × CollisionData,
        (d : ℚ) * pC ≤ (d : ℚ) * st.1 →
        (st.1 = pC → st.2.occurred = true ∧ st.2.position = pC) →
        (d : ℚ) * pC ≤
            (d : ℚ) * (L.foldr (fmsmcStepD findACP axis initial d translated current) st).1 ∧
        ((L.foldr (fmsmcStepD findACP axis initial d translated current) st).1 = pC →
          (L.foldr (fmsmcStepD findACP axis initial d translated current) st).2.occurred = true ∧
          (L.foldr (fmsmcStepD findACP axis initial d translated current) st).2.position = pC) := by
  intro L
  induction L with
  | nil => intro _ _ st hst1 hst2; exact ⟨hst1, hst2⟩
  | cons a rest ih =>
      intro hmin hinit st hst1 hst2
      have hr := ih
        (fun c2 h hc2 => hmin c2 (List.mem_cons_of_mem a h) hc2) hinit st hst1 hst2
      rw [List.foldr_cons]
      have hpa := hmin a (List.mem_cons_self a rest)
      unfold fmsmcStepD clampTo
      dsimp only
      split_ifs with hcond hclamp
      · exfalso
        have := hpa hcond.1
        linarith
      · exact ⟨hpa hcond.1, fun hpc => ⟨rfl, hpc⟩⟩
      · exact hr

/-- If some colliding candidate `c` has the earliest contact position among
all colliding candidates, at or beyond the starting point and strictly before
the running position's seed, then the normalized loop settles exactly at
`c`'s contact position and records a collision there. -/
theorem foldD_min (findACP : Axis → ℤ → CShape → CShape → ContactInfo)
    (axis : Axis) (initial : ℚ) (d : ℤ) (hdne : (d : ℚ) ≠ 0)
    (translated current c : CShape) :
    ∀ L : List CShape, c ∈ L →
      translated.collides c = true →
      (d : ℚ) * initial ≤ (d : ℚ) * (findACP axis d translated c).position →
      (∀ c2 ∈ L, translated.collides c2 = true →
        (d : ℚ) * (findACP axis d translated c).position ≤
          (d : ℚ) * (findACP axis d translated c2).position) →
      ∀ st : ℚ × CollisionData,
        (d : ℚ) * (findACP axis d translated c).position ≤ (d : ℚ) * st.1 →
        (st.1 = (findACP axis d translated c).position →
          st.2.occurred = true ∧ st.2.position = (findACP axis d translated c).position) →
        (L.foldr (fmsmcStepD findACP axis initial d translated current) st).1 =
            (findACP axis d translated c).position ∧
        (L.foldr (fmsmcStepD findACP axis initial d translated current) st).2.occurred = true ∧
        (L.foldr (fmsmcStepD findACP axis initial d translated current) st).2.position =
            (findACP axis d translated c).position := by
  intro L
  induction L with
  | nil => intro hmem; exact absurd hmem (List.not_mem_nil c)
  | cons a rest ih =>
      intro hmem hcol hinit hmin st hst1 hst2
      rw [List.foldr_cons]
      set st1 := rest.foldr (fmsmcStepD findACP axis initial d translated current) st
        with hst1d
      rcases List.mem_cons.mp hmem with heq | hmem2
      · subst heq
        have haux := foldD_keeps_above findACP axis initial
          (findACP axis d translated c).position d translated current rest
          (fun c2 h hc2 => hmin c2 (List.mem_cons_of_mem c h) hc2) hinit st hst1 hst2
        rw [← hst1d] at haux
        unfold fmsmcStepD clampTo
        dsimp only
        split_ifs with hcond hclamp
        · exfalso
          linarith [hinit, hclamp]
        · exact ⟨rfl, rfl, rfl⟩
        · have hle : (d : ℚ) * st1.1 ≤
              (d : ℚ) * (findACP axis d translated c).position := by
            by_contra hlt
            exact hcond ⟨hcol, lt_of_not_le hlt⟩
          have heq2 : st1.1 = (findACP axis d translated c).position :=
            mul_left_cancel₀ hdne (le_antisymm hle haux.1)
          exact ⟨heq2, (haux.2 heq2).1, (haux.2 heq2).2⟩
      · have hr := ih hmem2 hcol hinit
          (fun c2 h hc2 => hmin c2 (List.mem_cons_of_mem a h) hc2) st hst1 hst2
        rw [← hst1d] at hr
        have hpa := hmin a (List.mem_cons_self a rest)
        unfold fmsmcStepD clampTo
        dsimp only
        split_ifs with hcond hclamp
        · exfalso
          have h1 := hpa hcond.1
          have h2 := hcond.2
          rw [hr.1] at h2
          linarith
        · exfalso
          have h1 := hpa hcond.1
          have h2 := hcond.2
          rw [hr.1] at h2
          linarith
        · exact hr

/-- C5: for every call to `findMinShapeMovementCollision` — whatever the
narrow-phase dispatch table returns for its candidates — the recorded
movement is never negative, and any resolved axis position lies within the
closed interval between the starting (previous) position and the goal
position: a candidate contact computed past the starting position against
the direction of travel is clamped to the starting position. -/
theorem c5_resolved_position_within_span
    (findACP : Axis → ℤ → CShape → CShape → ContactInfo)
    (prevShape currentShape : CShape) (axis : Axis) (cands : List CShape) :
    0 ≤ (findMinShapeMovementCollision findACP prevShape currentShape axis cands).deltaMovement ∧
    ((findMinShapeMovementCollision findACP prevShape currentShape axis cands).occurred = true →
      min (prevShape.axisCoord axis) (currentShape.axisCoord axis) ≤
        (findMinShapeMovementCollision findACP prevShape currentShape axis cands).position ∧
      (findMinShapeMovementCollision findACP prevShape currentShape axis cands).position ≤
        max (prevShape.axisCoord axis) (currentShape.axisCoord axis)) := by
  unfold findMinShapeMovementCollision
  dsimp only
  by_cases hne : prevShape.axisCoord axis = currentShape.axisCoord axis
  · rw [if_neg (not_ne_iff.mpr hne)]
    exact ⟨le_refl _, fun habs => absurd habs (by simp [CollisionData.setUp])⟩
  · rw [if_pos hne]
    set initial := prevShape.axisCoord axis with hinit_def
    set goal := currentShape.axisCoord axis with hgoal_def
    set d : ℤ := if initial < goal then 1 else -1 with hd_def
    have hd : d = 1 ∨ d = -1 := by
      rw [hd_def]
      split_ifs
      · exact Or.inl rfl
      · exact Or.inr rfl
    rw [foldr_fmsmc_eq findACP axis initial d hd]
    rcases lt_or_gt_of_ne hne with hlt | hgt
    · have hd1 : d = 1 := by rw [hd_def, if_pos hlt]
      have hig : (d : ℚ) * initial ≤ (d : ℚ) * goal := by
        rw [hd1]
        push_cast
        linarith
      have h := foldD_interval findACP axis initial goal d
        (prevShape.moveAxis axis goal) currentShape cands hig
        (goal, CollisionData.setUp) hig (le_refl _) (le_refl _)
        (fun habs => absurd habs (by simp [CollisionData.setUp]))
      refine ⟨h.2.2.1, fun hocc => ?_⟩
      have hb := h.2.2.2 hocc
      have hdq : (d : ℚ) = 1 := by rw [hd1]; norm_num
      rw [hdq] at hb
      rw [min_eq_left (le_of_lt hlt), max_eq_right (le_of_lt hlt)]
      constructor <;> linarith [hb.1, hb.2]
    · have hd1 : d = -1 := by
        rw [hd_def, if_neg (not_lt.mpr (le_of_lt hgt))]
      have hig : (d : ℚ) * initial ≤ (d : ℚ) * goal := by
        rw [hd1]
        push_cast
        linarith
      have h := foldD_interval findACP axis initial goal d
        (prevShape.moveAxis axis goal) currentShape cands hig
        (goal, CollisionData.setUp) hig (le_refl _) (le_refl _)
        (fun habs => absurd habs (by simp [CollisionData.setUp]))
      refine ⟨h.2.2.1, fun hocc => ?_⟩
      have hb := h.2.2.2 hocc
      have hdq : (d : ℚ) = -1 := by rw [hd1]; norm_num
      rw [hdq] at hb
      rw [min_eq_right (le_of_lt hgt), max_eq_left (le_of_lt hgt)]
      constructor <;> linarith [hb.1, hb.2]

/-- Witness for C5 at a concrete colliding setup: a body moving from 0 to 20
with half width 5 against a rectangle at 15 of half width 5. -/
theorem c5_witness :
    0 ≤ (findMinShapeMovementCollision findAxisCollisionPosition
      ⟨0, 0, 5, 5⟩ ⟨20, 0, 5, 5⟩ Axis.x [⟨15, 0, 5, 5⟩]).deltaMovement ∧
    (findMinShapeMovementCollision findAxisCollisionPosition
      ⟨0, 0, 5, 5⟩ ⟨20, 0, 5, 5⟩ Axis.x [⟨15, 0, 5, 5⟩]).occurred = true ∧
    min ((⟨0, 0, 5, 5⟩ : CShape).axisCoord Axis.x)
        ((⟨20, 0, 5, 5⟩ : CShape).axisCoord Axis.x) ≤
      (findMinShapeMovementCollision findAxisCollisionPosition
        ⟨0, 0, 5, 5⟩ ⟨20, 0, 5, 5⟩ Axis.x [⟨15, 0, 5, 5⟩]).position ∧
    (findMinShapeMovementCollision findAxisCollisionPosition
        ⟨0, 0, 5, 5⟩ ⟨20, 0, 5, 5⟩ Axis.x [⟨15, 0, 5, 5⟩]).position ≤
      max ((⟨0, 0, 5, 5⟩ : CShape).axisCoord Axis.x)
        ((⟨20, 0, 5, 5⟩ : CShape).axisCoord Axis.x) := by
  have h := c5_resolved_position_within_span findAxisCollisionPosition
    ⟨0, 0, 5, 5⟩ ⟨20, 0, 5, 5⟩ Axis.x [⟨15, 0, 5, 5⟩]
  have hocc : (findMinShapeMovementCollision findAxisCollisionPosition
      ⟨0, 0, 5, 5⟩ ⟨20, 0, 5, 5⟩ Axis.x [⟨15, 0, 5, 5⟩]).occurred = true := by
    norm_num [findMinShapeMovementCollision, fmsmcStep, CShape.collides,
      QAABB.collides, CShape.aABB, CShape.moveAxis, CShape.axisCoord,
      findAxisCollisionPosition, CollisionData.set, CollisionData.setUp]
  exact ⟨h.1, hocc, (h.2 hocc).1, (h.2 hocc).2⟩

/-- C1: for a body moving along the x axis whose rectangle–rectangle contact
against candidate `c` lies at or beyond the start and strictly before the
goal, with no colliding candidate contact strictly closer, solid resolution
settles exactly at `thatShape.x - direction * (thatShape.halfWidth +
thisShape.halfWidth)` — the earliest blocking contact — and not at the
unclamped goal position. -/
theorem c1_rect_rect_earliest_contact (prevShape currentShape c : CShape)
    (cands : List CShape) (d : ℤ)
    (hd_def : d = if prevShape.x < currentShape.x then 1 else -1)
    (hmem : c ∈ cands)
    (hcol : ((prevShape.moveAxis Axis.x currentShape.x).collides c) = true)
    (hafter : (d : ℚ) * prevShape.x ≤
      (d : ℚ) * (c.x - (d : ℚ) * (c.halfWidth + prevShape.halfWidth)))
    (hbefore : (d : ℚ) * (c.x - (d : ℚ) * (c.halfWidth + prevShape.halfWidth)) <
      (d : ℚ) * currentShape.x)
    (hmin : ∀ c2 ∈ cands,
      ((prevShape.moveAxis Axis.x currentShape.x).collides c2) = true →
      (d : ℚ) * (c.x - (d : ℚ) * (c.halfWidth + prevShape.halfWidth)) ≤
        (d : ℚ) * (c2.x - (d : ℚ) * (c2.halfWidth + prevShape.halfWidth))) :
    (findMinShapeMovementCollision findAxisCollisionPosition
        prevShape currentShape Axis.x cands).occurred = true ∧
    (findMinShapeMovementCollision findAxisCollisionPosition
        prevShape currentShape Axis.x cands).position =
      c.x - (d : ℚ) * (c.halfWidth + prevShape.halfWidth) ∧
    (findMinShapeMovementCollision findAxisCollisionPosition
        prevShape currentShape Axis.x cands).position ≠ currentShape.x := by
  have hd : d = 1 ∨ d = -1 := by
    rw [hd_def]
    split_ifs
    · exact Or.inl rfl
    · exact Or.inr rfl
  have hdneQ : (d : ℚ) ≠ 0 := by rcases hd with rfl | rfl <;> norm_num
  have hne : prevShape.x ≠ currentShape.x := by
    intro h
    rw [h] at hafter
    linarith
  unfold findMinShapeMovementCollision
  dsimp only
  rw [if_pos
    (show prevShape.axisCoord Axis.x ≠ currentShape.axisCoord Axis.x from hne)]
  have hdir :
      (if prevShape.axisCoord Axis.x < currentShape.axisCoord Axis.x
        then (1 : ℤ) else -1) = d := hd_def.symm
  rw [hdir]
  rw [foldr_fmsmc_eq findAxisCollisionPosition Axis.x
    (prevShape.axisCoord Axis.x) d hd]
  have hst2 : (currentShape.axisCoord Axis.x, CollisionData.setUp).1 =
      (findAxisCollisionPosition Axis.x d
        (prevShape.moveAxis Axis.x (currentShape.axisCoord Axis.x)) c).position →
      (currentShape.axisCoord Axis.x, CollisionData.setUp).2.occurred = true ∧
      (currentShape.axisCoord Axis.x, CollisionData.setUp).2.position =
        (findAxisCollisionPosition Axis.x d
          (prevShape.moveAxis Axis.x (currentShape.axisCoord Axis.x)) c).position := by
    intro h
    exfalso
    have h2 : currentShape.x =
        c.x - (d : ℚ) * (c.halfWidth + prevShape.halfWidth) := h
    rw [← h2] at hbefore
    exact lt_irrefl _ hbefore
  have hmain := foldD_min findAxisCollisionPosition Axis.x
    (prevShape.axisCoord Axis.x) d hdneQ
    (prevShape.moveAxis Axis.x (currentShape.axisCoord Axis.x)) currentShape c
    cands hmem hcol hafter hmin
    (currentShape.axisCoord Axis.x, CollisionData.setUp)
    (le_of_lt hbefore) hst2
  refine ⟨hmain.2.1, hmain.2.2, ?_⟩
  have hposeq : (cands.foldr
      (fmsmcStepD findAxisCollisionPosition Axis.x (prevShape.axisCoord Axis.x) d
        (prevShape.moveAxis Axis.x (currentShape.axisCoord Axis.x)) currentShape)
      (currentShape.axisCoord Axis.x, CollisionData.setUp)).2.position =
      c.x - (d : ℚ) * (c.halfWidth + prevShape.halfWidth) := hmain.2.2
  intro habs
  have h3 : c.x - (d : ℚ) * (c.halfWidth + prevShape.halfWidth) = currentShape.x :=
    hposeq.symm.trans habs
  rw [h3] at hbefore
  exact lt_irrefl _ hbefore

/-- Witness for C1: the spec §8 concrete scenario — a width-10 body moving
from x = 0 to x = 20 against a static width-10 rectangle at x = 15 settles at
x = 5, not at the goal 20. -/
theorem c1_witness :
    ((⟨15, 0, 5, 5⟩ : CShape) ∈ ([⟨15, 0, 5, 5⟩] : List CShape)) ∧
    (((⟨0, 0, 5, 5⟩ : CShape).moveAxis Axis.x
      ((⟨20, 0, 5, 5⟩ : CShape).x)).collides ⟨15, 0, 5, 5⟩) = true ∧
    (findMinShapeMovementCollision findAxisCollisionPosition
        ⟨0, 0, 5, 5⟩ ⟨20, 0, 5, 5⟩ Axis.x [⟨15, 0, 5, 5⟩]).occurred = true ∧
    (findMinShapeMovementCollision findAxisCollisionPosition
        ⟨0, 0, 5, 5⟩ ⟨20, 0, 5, 5⟩ Axis.x [⟨15, 0, 5, 5⟩]).position = 5 ∧
    (findMinShapeMovementCollision findAxisCollisionPosition
        ⟨0, 0, 5, 5⟩ ⟨20, 0, 5, 5⟩ Axis.x [⟨15, 0, 5, 5⟩]).position ≠ 20 := by
  have h := c1_rect_rect_earliest_contact ⟨0, 0, 5, 5⟩ ⟨20, 0, 5, 5⟩
    ⟨15, 0, 5, 5⟩ [⟨15, 0, 5, 5⟩] 1 (by decide) (by decide)
    (by norm_num [CShape.collides, QAABB.collides, CShape.aABB, CShape.moveAxis])
    (by push_cast; norm_num) (by push_cast; norm_num)
    (by
      intro c2 hc2 _
      rw [List.mem_singleton] at hc2
      subst hc2
      exact le_refl _)
  refine ⟨by decide,
    by norm_num [CShape.collides, QAABB.collides, CShape.aABB, CShape.moveAxis],
    h.1, ?_, ?_⟩
  · rw [h.2.1]
    push_cast
    norm_num
  · exact h.2.2

/-- Witness for C9 at a concrete overlapping pair. -/
theorem c9_witness :
    (⟨2, "b", "a", ⟨5, 5, 5, 5⟩, "soft", 0, 0⟩ : SoftMsg) ∈
      checkEntityForSoftCollisions demoQuery demoSoftEnt ∧
    (⟨2, "b", "a", ⟨5, 5, 5, 5⟩, "soft", 0, 0⟩ : SoftMsg).x = 0 ∧
    (⟨2, "b", "a", ⟨5, 5, 5, 5⟩, "soft", 0, 0⟩ : SoftMsg).y = 0 := by
  have hmem : (⟨2, "b", "a", ⟨5, 5, 5, 5⟩, "soft", 0, 0⟩ : SoftMsg) ∈
      checkEntityForSoftCollisions demoQuery demoSoftEnt := by
    norm_num [checkEntityForSoftCollisions, demoQuery, demoSoftEnt,
      demoSoftOther, softHitList, firstCollidingOtherShape, CShape.collides,
      QAABB.collides, CShape.aABB]
  have h := (c9_soft_events_carry_no_side demoQuery demoSoftEnt).1 _ hmem
  exact ⟨hmem, h.1, h.2⟩

/-- Witness for C10: an overlapping jump-through platform approached from
below is excluded and contributes nothing. -/
theorem c10_witness :
    ((demoPlatform.jumpThrough = true ∧
        (demoPlatform.aabbs "t").top < (⟨0, 0, 10, 10⟩ : QAABB).bottom) ∨
      (demoMover.jumpThrough = true ∧
        (⟨0, 0, 10, 10⟩ : QAABB).top < (demoPlatform.aabbs "t").bottom)) ∧
    QAABB.collides ⟨0, 0, 12, 12⟩ (demoPlatform.aabbs "t") = true ∧
    includeEntity demoMover ⟨0, 0, 10, 10⟩ demoPlatform (demoPlatform.aabbs "t")
      none ⟨0, 0, 12, 12⟩ = false ∧
    gatherPotentialShapes demoMover ⟨0, 0, 10, 10⟩ ⟨0, 0, 12, 12⟩ none
        [demoPlatform] "t" =
      gatherPotentialShapes demoMover ⟨0, 0, 10, 10⟩ ⟨0, 0, 12, 12⟩ none [] "t" := by
  have hj : demoPlatform.jumpThrough = true ∧
      (demoPlatform.aabbs "t").top < (⟨0, 0, 10, 10⟩ : QAABB).bottom :=
    ⟨rfl, by norm_num [demoPlatform]⟩
  have h := c10_jumpThrough_excluded demoMover demoPlatform ⟨0, 0, 10, 10⟩
    ⟨0, 0, 12, 12⟩ none "t" (Or.inl hj)
  have h2 := h.2 [] []
  simp only [List.nil_append] at h2
  exact ⟨Or.inl hj, by decide, h.1, h2⟩

/-! ## C6 — grid re-indexing is idempotent and duplicate-free -/

/-- The insertion loop never touches the recorded mapped AABB. -/
theorem insertFold_againstAABB (types : List CType) (e : EId) :
    ∀ (l : List (ℤ × ℤ)) (p : AgainstGrid × EntityGridInfo),
      ((l.foldl (updateInsertStep types e) p).2).againstAABB = p.2.againstAABB := by
  intro l
  induction l with
  | nil => intro p; rfl
  | cons a rest ih =>
      intro p
      rw [List.foldl_cons, ih]
      rfl

/-- After `updateAgainst`, the recorded mapped AABB is the entity's current
mapped AABB (whether or not the call was a no-op). -/
theorem updateAgainst_records (gb : ℕ) (q : QAABB) (types : List CType)
    (e : EId) (st : AgainstGrid × EntityGridInfo) :
    ((updateAgainst gb q types e st).2).againstAABB = some (mapDown gb q) := by
  unfold updateAgainst
  dsimp only
  split_ifs with h
  · exact h
  · rw [insertFold_againstAABB]
    rfl

/-- `updateAgainst` on a state already recording the current mapped AABB is
the identity (the `aabb.equals(entity.againstAABB)` cost-control check). -/
theorem updateAgainst_skip (gb : ℕ) (q : QAABB) (types : List CType) (e : EId)
    (p : AgainstGrid × EntityGridInfo)
    (h : p.2.againstAABB = some (mapDown gb q)) :
    updateAgainst gb q types e p = p := by
  unfold updateAgainst
  dsimp only
  rw [if_pos h]

/-- Unfolding one type of the per-cell insertion loop. -/
theorem insertIntoCell_cons (m : CType → List EId) (e : EId) (a : CType)
    (rest : List CType) :
    insertIntoCell m (a :: rest) e =
      fun t2 => if t2 = a then (insertIntoCell m rest e) a ++ [e]
        else (insertIntoCell m rest e) t2 := rfl

/-- How many copies of the entity one cell insertion adds per type list. -/
theorem count_insertIntoCell (m : CType → List EId) (e : EId) :
    ∀ (types : List CType) (t : CType),
      ((insertIntoCell m types e) t).count e = (m t).count e + types.count t := by
  intro types
  induction types with
  | nil => intro t; simp [insertIntoCell]
  | cons a rest ih =>
      intro t
      rw [insertIntoCell_cons]
      by_cases hta : t = a
      · subst hta
        dsimp only
        rw [if_pos rfl, List.count_append, ih, List.count_cons]
        simp
        omega
      · dsimp only
        rw [if_neg hta, ih, List.count_cons]
        have hb : (a == t) = false :=
          beq_eq_false_iff_ne.mpr (fun h => hta h.symm)
        rw [hb]
        simp

/-- Reading a cell list through one iteration of the insertion loop. -/
theorem cellList_updateInsertStep (types : List CType) (e : EId)
    (p : AgainstGrid × EntityGridInfo) (xy : ℤ × ℤ) (k : ℕ) (t : CType) :
    cellList (updateInsertStep types e p xy).1 k t =
      if k = gridKey xy.1 xy.2
        then insertIntoCell (fun t2 => cellList p.1 (gridKey xy.1 xy.2) t2) types e t
        else cellList p.1 k t := by
  unfold updateInsertStep cellList
  dsimp only
  split_ifs with hk
  · subst hk
    rfl
  · rfl

/-- How many copies of the entity the whole insertion loop adds: once per
covered cell visit of the key times once per occurrence of the type. -/
theorem count_insertFold (types : List CType) (e : EId) :
    ∀ (l : List (ℤ × ℤ)) (p : AgainstGrid × EntityGridInfo) (k : ℕ) (t : CType),
      (cellList (l.foldl (updateInsertStep types e) p).1 k t).count e =
        (cellList p.1 k t).count e +
          ((l.map fun xy => gridKey xy.1 xy.2).count k) * types.count t := by
  intro l
  induction l with
  | nil => intro p k t; simp
  | cons a rest ih =>
      intro p k t
      rw [List.foldl_cons, ih, List.map_cons, List.count_cons,
        cellList_updateInsertStep]
      by_cases hk : k = gridKey a.1 a.2
      · rw [if_pos hk, count_insertIntoCell]
        subst hk
        simp only [beq_self_eq_true, if_true]
        ring
      · rw [if_neg hk]
        have hb : (gridKey a.1 a.2 == k) = false :=
          beq_eq_false_iff_ne.mpr (fun h => hk h.symm)
        rw [hb]
        simp

/-- `removeAgainst` of an entity recorded in no cells leaves the grid
untouched and only clears the (already empty) record. -/
theorem removeAgainst_nil_ag (g : AgainstGrid) (info : EntityGridInfo)
    (e : EId) (types : List CType) (h : info.ag = []) :
    removeAgainst g info e types = (g, { info with ag := [] }) := by
  unfold removeAgainst
  rw [h]
  rfl

/-- C6: re-running `updateAgainst` with no intervening AABB change is a
no-op, and indexing a previously unindexed entity leaves no per-type cell
list with more than one copy of it — after the first call and equally after
the second. -/
theorem c6_updateAgainst_idempotent_nodup (gb : ℕ) (q : QAABB)
    (types : List CType) (e : EId) (st : AgainstGrid × EntityGridInfo)
    (hfresh : ∀ k t, e ∉ cellList st.1 k t)
    (hag : st.2.ag = [])
    (hinj : (coveredKeys (mapDown gb q)).Nodup)
    (htypes : types.Nodup) :
    updateAgainst gb q types e (updateAgainst gb q types e st) =
      updateAgainst gb q types e st ∧
    (∀ k t, (cellList (updateAgainst gb q types e st).1 k t).count e ≤ 1) ∧
    (∀ k t, (cellList (updateAgainst gb q types e
        (updateAgainst gb q types e st)).1 k t).count e ≤ 1) := by
  have hid := updateAgainst_skip gb q types e _
    (updateAgainst_records gb q types e st)
  have hcount1 : ∀ k t,
      (cellList (updateAgainst gb q types e st).1 k t).count e ≤ 1 := by
    intro k t
    unfold updateAgainst
    dsimp only
    split_ifs with hskip
    · rw [List.count_eq_zero.mpr (hfresh k t)]
      exact Nat.zero_le 1
    · rw [removeAgainst_nil_ag st.1
        { againstAABB := some (mapDown gb q), ag := st.2.ag } e types hag,
        count_insertFold]
      dsimp only
      rw [List.count_eq_zero.mpr (hfresh k t), zero_add]
      exact mul_le_one' (List.nodup_iff_count_le_one.mp hinj k)
        (List.nodup_iff_count_le_one.mp htypes t)
  refine ⟨hid, hcount1, ?_⟩
  intro k t
  rw [hid]
  exact hcount1 k t

/-- Witness for C6: a fresh entity indexed into a one-cell grid. -/
theorem c6_witness :
    updateAgainst 8 ⟨0, 0, 10, 20⟩ ["a"] 7
        (updateAgainst 8 ⟨0, 0, 10, 20⟩ ["a"] 7
          (⟨fun _ => none⟩, ⟨none, []⟩)) =
      updateAgainst 8 ⟨0, 0, 10, 20⟩ ["a"] 7 (⟨fun _ => none⟩, ⟨none, []⟩) ∧
    (cellList (updateAgainst 8 ⟨0, 0, 10, 20⟩ ["a"] 7
        (⟨fun _ => none⟩, ⟨none, []⟩)).1 (gridKey 0 0) "a").count 7 ≤ 1 := by
  have h := c6_updateAgainst_idempotent_nodup 8 ⟨0, 0, 10, 20⟩ ["a"] 7
    (⟨fun _ => none⟩, ⟨none, []⟩)
    (fun k t => List.not_mem_nil 7) rfl (by decide) (by decide)
  exact ⟨h.1, h.2.1 (gridKey 0 0) "a"⟩

end Platypus
